import Mathlib

/-
Verification of the keepalive-ping governance and channel/call registration
layer of the hiddenswitch/grpc fragment.

The repository fragment ships the channel header (src/core/lib/surface/channel.h,
giving the CallRegistrationTable / RegisteredCall data model) and the transport
test exercising ping governance (test/core/transport/chttp2/too_many_pings_test.cc).
The chttp2 transport code implementing the receiver-side ping-strike policing and
the sender-side keepalive throttle is not part of the fragment; those operations
are modelled from the specification, as marked on each definition.
-/

namespace GrpcCore

/-- Receiver-side protocol states of the ping policing machine:
`Idle → CountingStrikes → ShuttingDown (terminal)`. -/
inductive ConnState where
  | idle
  | countingStrikes
  | shuttingDown
deriving DecidableEq, Repr

/-- Reason string carried by the GOAWAY-equivalent shutdown signal. -/
def tooManyPingsReason : String := "too_many_pings"

/-- Modelled from the spec: `PingStrikeCounter` (spec section 4.3), the
per-connection receiver-side state tracking consecutive too-frequent pings;
the chttp2 transport code implementing it is absent from the fragment (only
its test is present). Times are in milliseconds. -/
structure PingStrikeCounter where
  strikes : Nat
  lastPingTime : Option Nat
  minRecvPingIntervalMs : Nat
  maxPingStrikes : Nat
  state : ConnState
deriving DecidableEq, Repr

/-- Modelled from the spec: a fresh per-connection counter — strike count 0,
no ping observed yet, state `Idle`. -/
def PingStrikeCounter.init (minIntervalMs maxStrikes : Nat) : PingStrikeCounter :=
  { strikes := 0, lastPingTime := none, minRecvPingIntervalMs := minIntervalMs,
    maxPingStrikes := maxStrikes, state := ConnState.idle }

/-- Modelled from the spec: processing of one received ping frame at time `t`.
If the elapsed time since the previous ping is below the configured minimum
interval the strike count is incremented, and once it exceeds the configured
maximum the connection transitions to `ShuttingDown`, emitting the GOAWAY
signal with reason "too_many_pings"; a compliant ping resets the count to 0.
Returns the updated counter and the emitted signal, if any. -/
def PingStrikeCounter.onPingSignal (c : PingStrikeCounter) (t : Nat) :
    PingStrikeCounter × Option String :=
  if c.state = ConnState.shuttingDown then (c, none)
  else
    match c.lastPingTime with
    | none =>
        ({ c with lastPingTime := some t, strikes := 0,
                  state := ConnState.countingStrikes }, none)
    | some last =>
        if t - last < c.minRecvPingIntervalMs then
          if c.maxPingStrikes < c.strikes + 1 then
            ({ c with strikes := c.strikes + 1, lastPingTime := some t,
                      state := ConnState.shuttingDown }, some tooManyPingsReason)
          else
            ({ c with strikes := c.strikes + 1, lastPingTime := some t,
                      state := ConnState.countingStrikes }, none)
        else
          ({ c with strikes := 0, lastPingTime := some t,
                    state := ConnState.countingStrikes }, none)

/-- The counter after one received ping (signal discarded). -/
def PingStrikeCounter.onPing (c : PingStrikeCounter) (t : Nat) : PingStrikeCounter :=
  (c.onPingSignal t).1

/-- The counter after a sequence of received pings, in frame-arrival order. -/
def PingStrikeCounter.onPings (c : PingStrikeCounter) (ts : List Nat) : PingStrikeCounter :=
  ts.foldl PingStrikeCounter.onPing c

/-- Holds when every arrival time in `ts` comes strictly sooner than `m`
milliseconds after its predecessor (the predecessor of the first being `last`),
with times in nondecreasing order. -/
def tooFastChain (m : Nat) : Nat → List Nat → Bool
  | _, [] => true
  | last, t :: ts => (decide (last ≤ t) && decide (t - last < m)) && tooFastChain m t ts

lemma onPing_shuttingDown (c : PingStrikeCounter) (t : Nat)
    (h : c.state = ConnState.shuttingDown) : c.onPing t = c := by
  simp [PingStrikeCounter.onPing, PingStrikeCounter.onPingSignal, h]

lemma onPings_shuttingDown (ts : List Nat) :
    ∀ c : PingStrikeCounter, c.state = ConnState.shuttingDown → c.onPings ts = c := by
  induction ts with
  | nil => intro c _; rfl
  | cons t ts ih =>
      intro c h
      show (c.onPing t).onPings ts = c
      rw [onPing_shuttingDown c t h, ih c h]

lemma onPings_tooFast (m maxS : Nat) :
    ∀ (ts : List Nat) (last s : Nat), tooFastChain m last ts = true → s ≤ maxS →
      (PingStrikeCounter.onPings
          { strikes := s, lastPingTime := some last, minRecvPingIntervalMs := m,
            maxPingStrikes := maxS, state := ConnState.countingStrikes } ts).strikes
        = min (s + ts.length) (maxS + 1) ∧
      ((PingStrikeCounter.onPings
          { strikes := s, lastPingTime := some last, minRecvPingIntervalMs := m,
            maxPingStrikes := maxS, state := ConnState.countingStrikes } ts).state
        = ConnState.shuttingDown ↔ maxS < s + ts.length) := by
  intro ts
  induction ts with
  | nil =>
      intro last s _ hs
      constructor
      · simp [PingStrikeCounter.onPings]
        omega
      · simp [PingStrikeCounter.onPings]
        omega
  | cons t ts ih =>
      intro last s hchain hs
      have hchain' : (decide (last ≤ t) && decide (t - last < m)) = true ∧
          tooFastChain m t ts = true := by
        simpa [tooFastChain, Bool.and_eq_true] using hchain
      have hfast : t - last < m := by
        have := hchain'.1
        simp [Bool.and_eq_true] at this
        exact this.2
      have hstep : PingStrikeCounter.onPings
          { strikes := s, lastPingTime := some last, minRecvPingIntervalMs := m,
            maxPingStrikes := maxS, state := ConnState.countingStrikes } (t :: ts)
          = PingStrikeCounter.onPings
            (PingStrikeCounter.onPing
              { strikes := s, lastPingTime := some last, minRecvPingIntervalMs := m,
                maxPingStrikes := maxS, state := ConnState.countingStrikes } t) ts := rfl
      by_cases hcross : maxS < s + 1
      · -- this ping crosses the threshold: ShuttingDown absorbs the rest
        have hs' : s = maxS := by omega
        have hping : PingStrikeCounter.onPing
            { strikes := s, lastPingTime := some last, minRecvPingIntervalMs := m,
              maxPingStrikes := maxS, state := ConnState.countingStrikes } t
            = { strikes := s + 1, lastPingTime := some t, minRecvPingIntervalMs := m,
                maxPingStrikes := maxS, state := ConnState.shuttingDown } := by
          simp [PingStrikeCounter.onPing, PingStrikeCounter.onPingSignal, hfast, hcross]
        rw [hstep, hping, onPings_shuttingDown ts _ rfl]
        constructor
        · simp
          omega
        · simp
          omega
      · -- still within tolerance: recurse
        have hping : PingStrikeCounter.onPing
            { strikes := s, lastPingTime := some last, minRecvPingIntervalMs := m,
              maxPingStrikes := maxS, state := ConnState.countingStrikes } t
            = { strikes := s + 1, lastPingTime := some t, minRecvPingIntervalMs := m,
                maxPingStrikes := maxS, state := ConnState.countingStrikes } := by
          simp [PingStrikeCounter.onPing, PingStrikeCounter.onPingSignal, hfast, hcross]
        have hrec := ih t (s + 1) hchain'.2 (by omega)
        rw [hstep, hping]
        have harith : s + 1 + ts.length = s + (t :: ts).length := by
          simp
          omega
        constructor
        · rw [hrec.1, harith]
        · rw [hrec.2]
          omega

/-- C1: for every sequence of pings arriving strictly faster than the configured
minimum inter-ping interval (after the connection's original ping), the strike
count after N such pings equals N (up to the point the threshold triggers
shutdown), the connection is in `ShuttingDown` exactly when the strike count
exceeds the configured maximum, and the "too_many_pings" shutdown signal is
emitted exactly at the transition into `ShuttingDown`. -/
theorem ping_strikes_count_and_shutdown (m maxS t0 : Nat) (ts : List Nat)
    (hchain : tooFastChain m t0 ts = true) :
    ((ts.length ≤ maxS + 1 →
        (PingStrikeCounter.onPings
          { strikes := 0, lastPingTime := some t0, minRecvPingIntervalMs := m,
            maxPingStrikes := maxS, state := ConnState.countingStrikes } ts).strikes
          = ts.length) ∧
      ((PingStrikeCounter.onPings
          { strikes := 0, lastPingTime := some t0, minRecvPingIntervalMs := m,
            maxPingStrikes := maxS, state := ConnState.countingStrikes } ts).state
        = ConnState.shuttingDown ↔ maxS < ts.length)) ∧
    (∀ (c : PingStrikeCounter) (t : Nat),
        (c.onPingSignal t).2 = some tooManyPingsReason ↔
          (c.state ≠ ConnState.shuttingDown ∧ (c.onPing t).state = ConnState.shuttingDown)) := by
  constructor
  · have h := onPings_tooFast m maxS ts t0 0 hchain (Nat.zero_le _)
    constructor
    · intro hlen
      rw [h.1]
      simpa using Nat.min_eq_left (by omega)
    · simpa using h.2
  · intro c t
    unfold PingStrikeCounter.onPing PingStrikeCounter.onPingSignal
    by_cases hsd : c.state = ConnState.shuttingDown
    · simp [hsd]
    · cases hlp : c.lastPingTime with
      | none => simp [hsd, hlp]
      | some last =>
          by_cases hfast : t - last < c.minRecvPingIntervalMs
          · by_cases hcross : c.maxPingStrikes < c.strikes + 1
            · simp [hsd, hlp, hfast, hcross]
            · simp [hsd, hlp, hfast, hcross]
          · simp [hsd, hlp, hfast]

/-- Witness for C1: with minimum interval 5000ms and a maximum of 1 strike, the
original ping at time 0 followed by two violations (at 1000ms and 2000ms, each
1000ms apart) yields strike count 2 and the `ShuttingDown` state: the third ping
overall crosses the threshold. -/
theorem ping_strikes_count_and_shutdown_witness :
    tooFastChain 5000 0 [1000, 2000] = true ∧
    ((([1000, 2000] : List Nat).length ≤ 1 + 1 →
        (PingStrikeCounter.onPings
          { strikes := 0, lastPingTime := some 0, minRecvPingIntervalMs := 5000,
            maxPingStrikes := 1, state := ConnState.countingStrikes } [1000, 2000]).strikes
          = ([1000, 2000] : List Nat).length) ∧
      ((PingStrikeCounter.onPings
          { strikes := 0, lastPingTime := some 0, minRecvPingIntervalMs := 5000,
            maxPingStrikes := 1, state := ConnState.countingStrikes } [1000, 2000]).state
        = ConnState.shuttingDown ↔ 1 < ([1000, 2000] : List Nat).length)) ∧
    (∀ (c : PingStrikeCounter) (t : Nat),
        (c.onPingSignal t).2 = some tooManyPingsReason ↔
          (c.state ≠ ConnState.shuttingDown ∧ (c.onPing t).state = ConnState.shuttingDown)) :=
  ⟨by decide, ping_strikes_count_and_shutdown 5000 1 0 [1000, 2000] (by decide)⟩

/-- C4: a compliant ping (elapsed at least the configured minimum interval)
received on a live connection with a nonzero strike count resets the strike
count immediately to exactly 0. -/
theorem compliant_ping_resets_strikes (c : PingStrikeCounter) (t last : Nat)
    (hstate : c.state ≠ ConnState.shuttingDown) (hlast : c.lastPingTime = some last)
    (_hnz : 0 < c.strikes) (hcompliant : c.minRecvPingIntervalMs ≤ t - last) :
    (c.onPing t).strikes = 0 := by
  have hnotfast : ¬ (t - last < c.minRecvPingIntervalMs) := by omega
  simp [PingStrikeCounter.onPing, PingStrikeCounter.onPingSignal, hstate, hlast, hnotfast]

/-- Witness for C4: a counter with 1 strike and minimum interval 5000ms that
last saw a ping at time 0 receives a compliant ping at time 6000ms; its strike
count resets to 0. -/
theorem compliant_ping_resets_strikes_witness :
    ((PingStrikeCounter.mk 1 (some 0) 5000 1 ConnState.countingStrikes).onPing 6000).strikes
      = 0 :=
  compliant_ping_resets_strikes
    (PingStrikeCounter.mk 1 (some 0) 5000 1 ConnState.countingStrikes)
    6000 0 (by decide) rfl (by decide) (by decide)

/-- Modelled from the spec: `KeepaliveThrottle` (spec section 4.4), the
sender-side adaptive keepalive interval shared by the connections a channel
creates; the transport code implementing it is absent from the fragment. The
current interval doubles, bounded by the configured ceiling, when a GOAWAY
with reason "too_many_pings" is received. Durations are in milliseconds. -/
structure KeepaliveThrottle where
  intervalMs : Nat
  ceilingMs : Nat
deriving DecidableEq, Repr

/-- The interval read by connection-establishment code when configuring a new
connection's keepalive timer. -/
def KeepaliveThrottle.CurrentInterval (k : KeepaliveThrottle) : Nat := k.intervalMs

/-- Modelled from the spec: reaction to a received graceful-shutdown signal —
a "too_many_pings" reason doubles the current interval bounded by the ceiling;
any other reason is ignored for throttling purposes. -/
def KeepaliveThrottle.OnGoAwayReceived (k : KeepaliveThrottle) (reason : String) :
    KeepaliveThrottle :=
  if reason = tooManyPingsReason then
    { k with intervalMs := min (2 * k.intervalMs) k.ceilingMs }
  else k

lemma goaway_ceiling (k : KeepaliveThrottle) (r : String) :
    (k.OnGoAwayReceived r).ceilingMs = k.ceilingMs := by
  unfold KeepaliveThrottle.OnGoAwayReceived
  split <;> rfl

lemma goaway_interval_bounds (k : KeepaliveThrottle) (r : String)
    (hle : k.intervalMs ≤ k.ceilingMs) :
    k.intervalMs ≤ (k.OnGoAwayReceived r).intervalMs ∧
      (k.OnGoAwayReceived r).intervalMs ≤ k.ceilingMs := by
  unfold KeepaliveThrottle.OnGoAwayReceived
  split
  · constructor
    · simp
      omega
    · simp
  · exact ⟨Nat.le_refl _, hle⟩

lemma foldl_goaway_bounds (rs : List String) :
    ∀ k : KeepaliveThrottle, k.intervalMs ≤ k.ceilingMs →
      (rs.foldl KeepaliveThrottle.OnGoAwayReceived k).ceilingMs = k.ceilingMs ∧
      k.intervalMs ≤ (rs.foldl KeepaliveThrottle.OnGoAwayReceived k).intervalMs ∧
      (rs.foldl KeepaliveThrottle.OnGoAwayReceived k).intervalMs ≤ k.ceilingMs := by
  induction rs with
  | nil => intro k hle; exact ⟨rfl, Nat.le_refl _, hle⟩
  | cons r rs ih =>
      intro k hle
      have hstep := goaway_interval_bounds k r hle
      have hceil := goaway_ceiling k r
      have hrec := ih (k.OnGoAwayReceived r) (hceil ▸ hstep.2)
      refine ⟨by rw [List.foldl_cons, hrec.1, hceil], ?_, ?_⟩
      · exact Nat.le_trans hstep.1 hrec.2.1
      · rw [List.foldl_cons]
        exact Nat.le_trans hrec.2.2 (Nat.le_of_eq hceil)

/-- C5: for every sequence of shutdown signals delivered to a throttle whose
interval is within its configured ceiling, the interval never exceeds the
ceiling, never decreases automatically, and once the ceiling is reached
further too-many-pings signals are absorbed without any further increase. -/
theorem keepalive_interval_never_exceeds_ceiling (k : KeepaliveThrottle) (rs : List String)
    (hle : k.intervalMs ≤ k.ceilingMs) :
    (rs.foldl KeepaliveThrottle.OnGoAwayReceived k).intervalMs ≤ k.ceilingMs ∧
    k.intervalMs ≤ (rs.foldl KeepaliveThrottle.OnGoAwayReceived k).intervalMs ∧
    (k.intervalMs = k.ceilingMs →
      (rs.foldl KeepaliveThrottle.OnGoAwayReceived k).intervalMs = k.intervalMs) := by
  have h := foldl_goaway_bounds rs k hle
  refine ⟨h.2.2, h.2.1, ?_⟩
  intro hceil
  omega

/-- Witness for C5: a throttle already at its 8000ms ceiling absorbs two
further too-many-pings signals with no change of interval. -/
theorem keepalive_interval_never_exceeds_ceiling_witness :
    ((([tooManyPingsReason, tooManyPingsReason] : List String).foldl
        KeepaliveThrottle.OnGoAwayReceived (KeepaliveThrottle.mk 8000 8000)).intervalMs ≤ 8000 ∧
      (KeepaliveThrottle.mk 8000 8000).intervalMs ≤
        (([tooManyPingsReason, tooManyPingsReason] : List String).foldl
          KeepaliveThrottle.OnGoAwayReceived (KeepaliveThrottle.mk 8000 8000)).intervalMs ∧
      ((KeepaliveThrottle.mk 8000 8000).intervalMs = (KeepaliveThrottle.mk 8000 8000).ceilingMs →
        (([tooManyPingsReason, tooManyPingsReason] : List String).foldl
          KeepaliveThrottle.OnGoAwayReceived (KeepaliveThrottle.mk 8000 8000)).intervalMs
          = (KeepaliveThrottle.mk 8000 8000).intervalMs)) :=
  keepalive_interval_never_exceeds_ceiling (KeepaliveThrottle.mk 8000 8000)
    [tooManyPingsReason, tooManyPingsReason] (by decide)

/-- Modelled from the spec: when multiple logical channel handles are backed by
one physical subchannel, they share exactly one `KeepaliveThrottle` instance
(spec section 4.4 sharing rule); `handles` lists the sharing handle ids and
`throttle` is the single shared instance. -/
structure SharedSubchannel where
  handles : List Nat
  throttle : KeepaliveThrottle
deriving DecidableEq, Repr

/-- Modelled from the spec: a graceful-shutdown signal received on any one
connection of the shared subchannel updates the single shared throttle. -/
def SharedSubchannel.onConnectionGoAway (s : SharedSubchannel) (reason : String) :
    SharedSubchannel :=
  { s with throttle := s.throttle.OnGoAwayReceived reason }

/-- Modelled from the spec: the keepalive interval configured on the next
connection attempt issued via any sharing handle reads the shared throttle's
current value, with no per-handle coordination. -/
def SharedSubchannel.nextConnectionInterval (s : SharedSubchannel) (_handle : Nat) : Nat :=
  s.throttle.CurrentInterval

/-- C2 as stated is false at the ceiling: with the shared throttle already at
its configured ceiling (8000ms interval, 8000ms ceiling), the too-many-pings
signal received via handle 0 leaves the sibling handle 1's next connection
interval at 8000ms, not double the prior value. -/
theorem throttle_exact_doubling_counterexample :
    ¬ (((SharedSubchannel.mk [0, 1] (KeepaliveThrottle.mk 8000 8000)).onConnectionGoAway
          tooManyPingsReason).nextConnectionInterval 1
        = 2 * (SharedSubchannel.mk [0, 1]
            (KeepaliveThrottle.mk 8000 8000)).nextConnectionInterval 0) := by
  decide

/-- C2 (amended): for all handles sharing one KeepaliveThrottle whose interval
is within its ceiling, after one connection's too-many-pings signal, every
sharer's next connection attempt reads the doubled-then-clamped interval
`min (2 * prior) ceiling` — exactly double whenever the doubled value stays
within the ceiling — never less than the prior value, and changed exactly once
per discrete signal, without coordination between handles. -/
theorem throttle_doubling_shared (s : SharedSubchannel) (h h' : Nat)
    (_hmem : h ∈ s.handles) (_hmem' : h' ∈ s.handles)
    (hle : s.throttle.intervalMs ≤ s.throttle.ceilingMs) :
    ((s.onConnectionGoAway tooManyPingsReason).nextConnectionInterval h'
        = min (2 * s.nextConnectionInterval h) s.throttle.ceilingMs) ∧
    (2 * s.throttle.intervalMs ≤ s.throttle.ceilingMs →
      (s.onConnectionGoAway tooManyPingsReason).nextConnectionInterval h'
        = 2 * s.nextConnectionInterval h) ∧
    s.nextConnectionInterval h ≤
      (s.onConnectionGoAway tooManyPingsReason).nextConnectionInterval h' := by
  have hdouble : (s.throttle.OnGoAwayReceived tooManyPingsReason).intervalMs
      = min (2 * s.throttle.intervalMs) s.throttle.ceilingMs := by
    unfold KeepaliveThrottle.OnGoAwayReceived
    rw [if_pos rfl]
  refine ⟨?_, ?_, ?_⟩
  · simpa [SharedSubchannel.onConnectionGoAway, SharedSubchannel.nextConnectionInterval,
      KeepaliveThrottle.CurrentInterval] using hdouble
  · intro hroom
    simp [SharedSubchannel.onConnectionGoAway, SharedSubchannel.nextConnectionInterval,
      KeepaliveThrottle.CurrentInterval, hdouble]
    omega
  · simp [SharedSubchannel.onConnectionGoAway, SharedSubchannel.nextConnectionInterval,
      KeepaliveThrottle.CurrentInterval, hdouble]
    omega

/-- Witness for the amended C2: two handles 0 and 1 share a throttle at 1000ms
with a 3600000ms ceiling; after a too-many-pings signal via handle 0, handle
1's next connection attempt reads exactly 2000ms. -/
theorem throttle_doubling_shared_witness :
    (((SharedSubchannel.mk [0, 1] (KeepaliveThrottle.mk 1000 3600000)).onConnectionGoAway
          tooManyPingsReason).nextConnectionInterval 1
        = min (2 * (SharedSubchannel.mk [0, 1]
            (KeepaliveThrottle.mk 1000 3600000)).nextConnectionInterval 0)
          (KeepaliveThrottle.mk 1000 3600000).ceilingMs) ∧
    (2 * (KeepaliveThrottle.mk 1000 3600000).intervalMs ≤
        (KeepaliveThrottle.mk 1000 3600000).ceilingMs →
      ((SharedSubchannel.mk [0, 1] (KeepaliveThrottle.mk 1000 3600000)).onConnectionGoAway
          tooManyPingsReason).nextConnectionInterval 1
        = 2 * (SharedSubchannel.mk [0, 1]
            (KeepaliveThrottle.mk 1000 3600000)).nextConnectionInterval 0) ∧
    (SharedSubchannel.mk [0, 1] (KeepaliveThrottle.mk 1000 3600000)).nextConnectionInterval 0 ≤
      ((SharedSubchannel.mk [0, 1] (KeepaliveThrottle.mk 1000 3600000)).onConnectionGoAway
        tooManyPingsReason).nextConnectionInterval 1 :=
  throttle_doubling_shared (SharedSubchannel.mk [0, 1] (KeepaliveThrottle.mk 1000 3600000))
    0 1 (by decide) (by decide) (by decide)

/-- Modelled from the spec: a physical connection as configured at its
construction time — the subchannel it belongs to and the keepalive interval
its timer was set up with. -/
structure Connection where
  subchannelId : Nat
  keepaliveTimeMs : Nat
deriving DecidableEq, Repr

/-- Modelled from the spec: the events of a channel's lifetime that matter to
keepalive configuration — a received graceful-shutdown signal, and a resolver
update replacing the underlying connection with a newly established one on
subchannel `sub`. -/
inductive ChannelEvent where
  | goaway (reason : String)
  | resolverUpdate (sub : Nat)
deriving DecidableEq, Repr

/-- Modelled from the spec: a logical channel — the interval recorded at
channel-construction time, its (shared) keepalive throttle, and the
connections established so far, most recent first. -/
structure ChannelState where
  constructionIntervalMs : Nat
  throttle : KeepaliveThrottle
  conns : List Connection
deriving DecidableEq, Repr

/-- Modelled from the spec: channel construction with an initial keepalive
interval and throttle ceiling; no connection is established yet. -/
def ChannelState.mkChannel (initialIntervalMs ceilingMs : Nat) : ChannelState :=
  { constructionIntervalMs := initialIntervalMs,
    throttle := KeepaliveThrottle.mk initialIntervalMs ceilingMs, conns := [] }

/-- Modelled from the spec: event handling — a GOAWAY updates the throttle;
a resolver update establishes a new connection configured with the throttle
interval current at that moment. -/
def ChannelState.step (s : ChannelState) : ChannelEvent → ChannelState
  | ChannelEvent.goaway r => { s with throttle := s.throttle.OnGoAwayReceived r }
  | ChannelEvent.resolverUpdate sub =>
      { s with conns := Connection.mk sub s.throttle.CurrentInterval :: s.conns }

/-- The channel after a sequence of events. -/
def ChannelState.run (s : ChannelState) (es : List ChannelEvent) : ChannelState :=
  es.foldl ChannelState.step s

/-- C6: after any event history, a connection newly established by a resolver
update — on any subchannel — is configured with the throttle interval current
at that moment; concretely, a channel constructed at 1000ms that received one
too-many-pings signal configures the replacement connection (on a different
subchannel, id 7) at 2000ms, not the 1000ms channel-construction value. -/
theorem resolver_update_uses_current_interval (s : ChannelState)
    (es : List ChannelEvent) (sub : Nat) :
    ((s.run (es ++ [ChannelEvent.resolverUpdate sub])).conns.head?
        = some (Connection.mk sub (s.run es).throttle.CurrentInterval)) ∧
    (((ChannelState.mkChannel 1000 3600000).run
        [ChannelEvent.goaway tooManyPingsReason, ChannelEvent.resolverUpdate 7]).conns.head?
      = some (Connection.mk 7 2000)) ∧
    (2000 : Nat) ≠ (ChannelState.mkChannel 1000 3600000).constructionIntervalMs := by
  refine ⟨?_, by decide, by decide⟩
  rw [ChannelState.run, List.foldl_append]
  rfl

/-- Application-visible terminal status codes observed in the scenario. -/
inductive StatusCode where
  | OK
  | UNAVAILABLE
  | DEADLINE_EXCEEDED
  | PERMISSION_DENIED
deriving DecidableEq, Repr

/-- Keepalive ping send times for a connection whose timer fires every `k`
milliseconds, up to and including deadline `d`. -/
def pingTimes (k d : Nat) : List Nat :=
  (List.range (d / k)).map (fun i => (i + 1) * k)

/-- Feeds pings to the receiver's counter until it shuts down or the pings run
out, also counting the pings sent. -/
def sendPingsCount : PingStrikeCounter → List Nat → Nat → PingStrikeCounter × Nat
  | c, [], sent => (c, sent)
  | c, t :: ts, sent =>
      let c1 := c.onPing t
      if c1.state = ConnState.shuttingDown then (c1, sent + 1)
      else sendPingsCount c1 ts (sent + 1)

/-- Modelled from the spec: one waiting call (test helper `PerformWaitingCall`)
on a fresh connection — the client holds the call open until deadline `d`,
sending keepalive pings every `k` milliseconds; the server side evaluates them
with a fresh `PingStrikeCounter` (minimum interval `m`, maximum strikes
`maxStrikes`); a server shutdown ends the call with `UNAVAILABLE`, otherwise
the deadline expires with `DEADLINE_EXCEEDED`. Returns the status and the
number of pings sent. -/
def runWaitingCall (k d m maxStrikes : Nat) : StatusCode × Nat :=
  let r := sendPingsCount (PingStrikeCounter.init m maxStrikes) (pingTimes k d) 0
  if r.1.state = ConnState.shuttingDown then (StatusCode.UNAVAILABLE, r.2)
  else (StatusCode.DEADLINE_EXCEEDED, r.2)

/-- Modelled from the spec: a waiting call followed by the channel throttle's
reaction — a too-many-pings shutdown doubles the tracked keepalive interval
for the next connection. -/
def scenarioCall (k : KeepaliveThrottle) (d m maxStrikes : Nat) :
    (StatusCode × Nat) × KeepaliveThrottle :=
  let r := runWaitingCall k.CurrentInterval d m maxStrikes
  if r.1 = StatusCode.UNAVAILABLE then (r, k.OnGoAwayReceived tooManyPingsReason)
  else (r, k)

/-- C3: with the server at ping-strike threshold 1 and minimum receive interval
5000ms and the client starting at a 1000ms keepalive interval, each of three
successive waiting calls (15000ms deadline) ends `UNAVAILABLE` after exactly 3
pings while the tracked interval doubles through 1000, 2000, 4000, 8000ms; the
fourth call, now compliant with the server's 5000ms minimum, ends
`DEADLINE_EXCEEDED` and leaves the interval at 8000ms. -/
theorem keepalive_throttling_scenario :
    (scenarioCall (KeepaliveThrottle.mk 1000 3600000) 15000 5000 1).1
        = (StatusCode.UNAVAILABLE, 3) ∧
    (scenarioCall (scenarioCall (KeepaliveThrottle.mk 1000 3600000) 15000 5000 1).2
        15000 5000 1).1 = (StatusCode.UNAVAILABLE, 3) ∧
    (scenarioCall (scenarioCall (scenarioCall (KeepaliveThrottle.mk 1000 3600000)
        15000 5000 1).2 15000 5000 1).2 15000 5000 1).1 = (StatusCode.UNAVAILABLE, 3) ∧
    (KeepaliveThrottle.mk 1000 3600000).CurrentInterval = 1000 ∧
    (scenarioCall (KeepaliveThrottle.mk 1000 3600000) 15000 5000 1).2.CurrentInterval = 2000 ∧
    (scenarioCall (scenarioCall (KeepaliveThrottle.mk 1000 3600000) 15000 5000 1).2
        15000 5000 1).2.CurrentInterval = 4000 ∧
    (scenarioCall (scenarioCall (scenarioCall (KeepaliveThrottle.mk 1000 3600000)
        15000 5000 1).2 15000 5000 1).2 15000 5000 1).2.CurrentInterval = 8000 ∧
    (scenarioCall (scenarioCall (scenarioCall (scenarioCall
        (KeepaliveThrottle.mk 1000 3600000) 15000 5000 1).2 15000 5000 1).2
        15000 5000 1).2 15000 5000 1).1.1 = StatusCode.DEADLINE_EXCEEDED ∧
    (scenarioCall (scenarioCall (scenarioCall (scenarioCall
        (KeepaliveThrottle.mk 1000 3600000) 15000 5000 1).2 15000 5000 1).2
        15000 5000 1).2 15000 5000 1).2.CurrentInterval = 8000 := by
  decide

/-- Table value from src/core/lib/surface/channel.h: an interned method path
and an optional interned authority override, both owned by the entry. -/
structure RegisteredCall where
  path : String
  authority : Option String
deriving DecidableEq, Repr

/-- Data model from src/core/lib/surface/channel.h: the per-channel
registration table — a map from owned (method, host) string pairs to
`RegisteredCall` entries plus a diagnostic registration-attempt counter; the
mutex guarding it is implicit in the sequential embedding. The map is kept in
insertion order so that an entry's position is a stable identity for the
handle returned to the caller. -/
structure CallRegistrationTable where
  map : List ((String × String) × RegisteredCall)
  method_registration_attempts : Nat
deriving DecidableEq, Repr

/-- Position of the entry stored under `key`, if any: the identity of the
handle a registration returns. -/
def lookupIdx (key : String × String) :
    List ((String × String) × RegisteredCall) → Option Nat
  | [] => none
  | e :: es => if e.1 = key then some 0 else (lookupIdx key es).map (· + 1)

/-- Modelled from the spec: `Register(method, host)` (spec section 4.1; the
implementation in channel.cc is absent from the fragment, only the table's
data model in channel.h is present) — bump the registration-attempt counter;
if an identical (method, host) pair exists return a handle to the existing
entry, else insert a new owned entry and return a handle to it. -/
def CallRegistrationTable.Register (tbl : CallRegistrationTable) (method host : String) :
    Nat × CallRegistrationTable :=
  let t1 : CallRegistrationTable :=
    { tbl with method_registration_attempts := tbl.method_registration_attempts + 1 }
  match lookupIdx (method, host) t1.map with
  | some i => (i, t1)
  | none =>
      (t1.map.length,
        { t1 with map := t1.map ++ [((method, host), RegisteredCall.mk method (some host))] })

lemma lookupIdx_append_self (key : String × String) (v : RegisteredCall) :
    ∀ l : List ((String × String) × RegisteredCall), lookupIdx key l = none →
      lookupIdx key (l ++ [(key, v)]) = some l.length := by
  intro l
  induction l with
  | nil => intro _; simp [lookupIdx]
  | cons e es ih =>
      intro hnone
      by_cases he : e.1 = key
      · simp [lookupIdx, he] at hnone
      · have hes : lookupIdx key es = none := by
          by_contra hne
          cases hx : lookupIdx key es with
          | none => exact hne hx
          | some j => simp [lookupIdx, he, hx] at hnone
        simp [lookupIdx, he, ih hes]

/-- C7: `Register` is idempotent — registering the same (method, host) pair a
second time returns a handle with the identical entry identity, leaves the
table rows unchanged (no duplicate row), and only increments the diagnostic
registration-attempt counter, while a first registration of an absent pair
appends exactly one new owned entry. -/
theorem register_idempotent (tbl : CallRegistrationTable) (method host : String) :
    (((tbl.Register method host).2.Register method host).1
        = (tbl.Register method host).1) ∧
    (((tbl.Register method host).2.Register method host).2.map
        = (tbl.Register method host).2.map) ∧
    (((tbl.Register method host).2.Register method host).2.method_registration_attempts
        = (tbl.Register method host).2.method_registration_attempts + 1) ∧
    (lookupIdx (method, host) tbl.map = none →
      (tbl.Register method host).2.map
        = tbl.map ++ [((method, host), RegisteredCall.mk method (some host))]) := by
  cases hfind : lookupIdx (method, host) tbl.map with
  | some i =>
      have hfirst : tbl.Register method host
          = (i, { tbl with
              method_registration_attempts := tbl.method_registration_attempts + 1 }) := by
        simp [CallRegistrationTable.Register, hfind]
      have hsecond : ({ tbl with
            method_registration_attempts := tbl.method_registration_attempts + 1 }
              : CallRegistrationTable).Register method host
          = (i, { tbl with
              method_registration_attempts := tbl.method_registration_attempts + 2 }) := by
        simp [CallRegistrationTable.Register, hfind]
      rw [hfirst]
      refine ⟨by rw [hsecond], by rw [hsecond], by rw [hsecond], ?_⟩
      intro hnone
      exact absurd hnone (by simp)
  | none =>
      have hfirst : tbl.Register method host
          = (tbl.map.length,
             { map := tbl.map ++ [((method, host), RegisteredCall.mk method (some host))],
               method_registration_attempts := tbl.method_registration_attempts + 1 }) := by
        simp [CallRegistrationTable.Register, hfind]
      have happ := lookupIdx_append_self (method, host)
        (RegisteredCall.mk method (some host)) tbl.map hfind
      have hsecond : (CallRegistrationTable.mk
            (tbl.map ++ [((method, host), RegisteredCall.mk method (some host))])
            (tbl.method_registration_attempts + 1)).Register method host
          = (tbl.map.length,
             CallRegistrationTable.mk
               (tbl.map ++ [((method, host), RegisteredCall.mk method (some host))])
               (tbl.method_registration_attempts + 2)) := by
        simp [CallRegistrationTable.Register, happ]
      rw [hfirst]
      exact ⟨by rw [hsecond], by rw [hsecond], by rw [hsecond], fun _ => rfl⟩

/-- Witness for C7: registering ("/foo", "host") twice on the empty table
returns handle 0 both times, leaves one row, and counts two attempts. -/
theorem register_idempotent_witness :
    ((((CallRegistrationTable.mk [] 0).Register "/foo" "host").2.Register "/foo" "host").1
        = ((CallRegistrationTable.mk [] 0).Register "/foo" "host").1) ∧
    ((((CallRegistrationTable.mk [] 0).Register "/foo" "host").2.Register "/foo" "host").2.map
        = ((CallRegistrationTable.mk [] 0).Register "/foo" "host").2.map) ∧
    ((((CallRegistrationTable.mk [] 0).Register "/foo"
          "host").2.Register "/foo" "host").2.method_registration_attempts
        = ((CallRegistrationTable.mk [] 0).Register
            "/foo" "host").2.method_registration_attempts + 1) ∧
    (lookupIdx ("/foo", "host") (CallRegistrationTable.mk [] 0).map = none →
      ((CallRegistrationTable.mk [] 0).Register "/foo" "host").2.map
        = (CallRegistrationTable.mk [] 0).map
            ++ [(("/foo", "host"), RegisteredCall.mk "/foo" (some "host"))]) :=
  register_idempotent (CallRegistrationTable.mk [] 0) "/foo" "host"

/-- Modelled from the spec: the control state of one connection delivering a
too-many-pings signal to the shared throttle through an atomic
compare-and-update loop — about to read the shared interval, holding an
observed value and about to compare-and-swap, or finished. -/
inductive CasThread where
  | readPhase
  | tryCas (observed : Nat)
  | done
deriving DecidableEq, Repr

/-- Modelled from the spec: the shared throttle word plus the control states of
the connections concurrently delivering signals to it. -/
structure CasSystem where
  intervalMs : Nat
  ceilingMs : Nat
  threads : List CasThread
deriving DecidableEq, Repr

/-- One interleaving step: thread `i` (if it exists and is not finished) either
reads the shared interval, or attempts the compare-and-update — succeeding,
and installing the doubled-then-clamped value, only when the word is unchanged
since its read, and otherwise retrying from a fresh read. -/
def casStep (s : CasSystem) (i : Nat) : CasSystem :=
  match s.threads.get? i with
  | none => s
  | some CasThread.readPhase =>
      { s with threads := s.threads.set i (CasThread.tryCas s.intervalMs) }
  | some (CasThread.tryCas o) =>
      if o = s.intervalMs then
        { s with intervalMs := min (2 * o) s.ceilingMs,
                 threads := s.threads.set i CasThread.done }
      else
        { s with threads := s.threads.set i CasThread.readPhase }
  | some CasThread.done => s

/-- The system after an interleaving described by a schedule of thread indices. -/
def casRun (s : CasSystem) (schedule : List Nat) : CasSystem :=
  schedule.foldl casStep s

/-- Number of finished signal deliveries. -/
def countDone : List CasThread → Nat
  | [] => 0
  | t :: ts => (if t = CasThread.done then 1 else 0) + countDone ts

lemma countDone_set_not_done :
    ∀ (l : List CasThread) (i : Nat) (t t' : CasThread), l.get? i = some t →
      t ≠ CasThread.done → t' ≠ CasThread.done → countDone (l.set i t') = countDone l := by
  intro l
  induction l with
  | nil => intro i t t' hget; simp at hget
  | cons x xs ih =>
      intro i t t' hget ht ht'
      cases i with
      | zero =>
          have hx : x = t := by simpa using hget
          subst hx
          simp [countDone, ht, ht']
      | succ j =>
          have hget' : xs.get? j = some t := by simpa using hget
          simp [countDone, ih j t t' hget' ht ht']

lemma countDone_set_done :
    ∀ (l : List CasThread) (i : Nat) (t : CasThread), l.get? i = some t →
      t ≠ CasThread.done → countDone (l.set i CasThread.done) = countDone l + 1 := by
  intro l
  induction l with
  | nil => intro i t hget; simp at hget
  | cons x xs ih =>
      intro i t hget ht
      cases i with
      | zero =>
          have hx : x = t := by simpa using hget
          subst hx
          simp [countDone, ht]
          omega
      | succ j =>
          have hget' : xs.get? j = some t := by simpa using hget
          simp [countDone, ih j t hget' ht]
          omega

lemma countDone_eq_length :
    ∀ l : List CasThread, (∀ t ∈ l, t = CasThread.done) → countDone l = l.length := by
  intro l
  induction l with
  | nil => intro _; rfl
  | cons x xs ih =>
      intro hall
      have hx : x = CasThread.done := hall x (List.mem_cons_self x xs)
      have hxs := ih (fun t ht => hall t (List.mem_cons_of_mem x ht))
      simp [countDone, hx, hxs]
      omega

/-- The doubled-then-clamped interval after `n` completed signal deliveries. -/
def iterClampDouble (c : Nat) : Nat → Nat → Nat
  | 0, v => v
  | n + 1, v => min (2 * iterClampDouble c n v) c

/-- Invariant tying the shared word to the number of completed deliveries:
the ceiling is fixed and the interval is the initial value doubled-then-clamped
once per finished signal. -/
def casInv (v0 c0 : Nat) (s : CasSystem) : Prop :=
  s.ceilingMs = c0 ∧ s.intervalMs = iterClampDouble c0 (countDone s.threads) v0

lemma casStep_inv (v0 c0 : Nat) (s : CasSystem) (i : Nat) (h : casInv v0 c0 s) :
    casInv v0 c0 (casStep s i) := by
  unfold casStep
  cases hget : s.threads.get? i with
  | none => exact h
  | some t =>
      cases t with
      | readPhase =>
          refine ⟨h.1, ?_⟩
          have hcount := countDone_set_not_done s.threads i CasThread.readPhase
            (CasThread.tryCas s.intervalMs) hget (by simp) (by simp)
          simpa [hcount] using h.2
      | tryCas o =>
          by_cases heq : o = s.intervalMs
          · have hcount := countDone_set_done s.threads i (CasThread.tryCas o) hget (by simp)
            refine ⟨by simp [heq, h.1], ?_⟩
            simp [heq, hcount, iterClampDouble, h.1, h.2]
          · have hcount := countDone_set_not_done s.threads i (CasThread.tryCas o)
              CasThread.readPhase hget (by simp) (by simp)
            refine ⟨by simp [heq, h.1], ?_⟩
            simpa [heq, hcount] using h.2
      | done => exact h

lemma casRun_inv (v0 c0 : Nat) (schedule : List Nat) :
    ∀ s : CasSystem, casInv v0 c0 s → casInv v0 c0 (casRun s schedule) := by
  induction schedule with
  | nil => intro s h; exact h
  | cons i sched ih =>
      intro s h
      exact ih (casStep s i) (casStep_inv v0 c0 s i h)

lemma casStep_threads_length (s : CasSystem) (i : Nat) :
    (casStep s i).threads.length = s.threads.length := by
  unfold casStep
  cases hget : s.threads.get? i with
  | none => rfl
  | some t =>
      cases t with
      | readPhase => simp
      | tryCas o =>
          by_cases heq : o = s.intervalMs
          · simp [heq]
          · simp [heq]
      | done => rfl

lemma casRun_threads_length (schedule : List Nat) :
    ∀ s : CasSystem, (casRun s schedule).threads.length = s.threads.length := by
  induction schedule with
  | nil => intro s; rfl
  | cons i sched ih =>
      intro s
      show (casRun (casStep s i) sched).threads.length = s.threads.length
      rw [ih (casStep s i), casStep_threads_length]

/-- C9: under every interleaving of two connections each delivering one
too-many-pings signal to the shared throttle through the atomic
compare-and-update loop, once both deliveries complete the shared interval
equals the result of the two sequential `OnGoAwayReceived` doublings — no
signal's increase is lost and none is applied more than once. -/
theorem concurrent_throttle_signals (v0 c0 : Nat) (schedule : List Nat)
    (hdone : ∀ th ∈ (casRun
        (CasSystem.mk v0 c0 [CasThread.readPhase, CasThread.readPhase]) schedule).threads,
      th = CasThread.done) :
    (casRun (CasSystem.mk v0 c0 [CasThread.readPhase, CasThread.readPhase])
        schedule).intervalMs
      = (((KeepaliveThrottle.mk v0 c0).OnGoAwayReceived
          tooManyPingsReason).OnGoAwayReceived tooManyPingsReason).intervalMs := by
  have hinv : casInv v0 c0 (CasSystem.mk v0 c0 [CasThread.readPhase, CasThread.readPhase]) :=
    ⟨rfl, rfl⟩
  have hrun := casRun_inv v0 c0 schedule _ hinv
  have hlen := casRun_threads_length schedule
    (CasSystem.mk v0 c0 [CasThread.readPhase, CasThread.readPhase])
  have hcount := countDone_eq_length _ hdone
  rw [hrun.2, hcount, hlen]
  show iterClampDouble c0 2 v0 = _
  simp [KeepaliveThrottle.OnGoAwayReceived, iterClampDouble]

/-- Witness for C9: with initial interval 1000ms and ceiling 1000000ms, the
interleaving in which both connections read before either updates — forcing
the second compare-and-update to retry — completes with interval 4000ms,
matching the two sequential doublings. -/
theorem concurrent_throttle_signals_witness :
    (∀ th ∈ (casRun (CasSystem.mk 1000 1000000 [CasThread.readPhase, CasThread.readPhase])
        [0, 1, 0, 1, 1, 1]).threads, th = CasThread.done) ∧
    (casRun (CasSystem.mk 1000 1000000 [CasThread.readPhase, CasThread.readPhase])
        [0, 1, 0, 1, 1, 1]).intervalMs
      = (((KeepaliveThrottle.mk 1000 1000000).OnGoAwayReceived
          tooManyPingsReason).OnGoAwayReceived tooManyPingsReason).intervalMs :=
  ⟨by decide, concurrent_throttle_signals 1000 1000000 [0, 1, 0, 1, 1, 1] (by decide)⟩

end GrpcCore
